import Mathlib

/-!
Shallow embedding of the pakwheels catalog service (routes/pakwheelsRoutes.js).

The persisted document is `{ cars: [Listing...], nextId }`.  Query-engine
operations (`GET /api/cars` filtering and sorting, `GET /api/cars/:id`,
`POST /api/cars`, `GET /api/makes`) are translated into pure Lean functions
over explicit catalog values.  JavaScript peculiarities that the routes rely
on are modelled explicitly:

* `parseInt` is `jsParseInt : String → Option Int`, `none` standing for the
  NaN sentinel; every numeric comparison against NaN is false.
* query parameters are `Option String` (absent = `none`); `if (param)` is a
  truthiness test, false for `none` and for the empty string.
* request-body fields are `Option JsValue` where a `JsValue` is a JSON string
  or number, so `!field` truthiness (rejecting `0` and `""`) is expressible.
* `Array.prototype.sort(cmp)` with the comparator of the source (which only
  returns 1 or -1) is modelled by a structural stable insertion sort on the
  relation "comparator value ≤ 0"; for the comparators that arise on the
  inputs the claims quantify over, any correct sort yields the same output.
* string helpers (`toLowerCase`, `trim`, `includes`, lexicographic order)
  are implemented by structural recursion on the character list so that
  every operation evaluates inside the kernel; lowering is ASCII, matching
  the character data of this service.
-/

/-- ASCII lowering of one character, modelling `toLowerCase` on the ASCII
range used by this service. -/
def lowerChar (c : Char) : Char :=
  if 65 ≤ c.toNat && c.toNat ≤ 90 then Char.ofNat (c.toNat + 32) else c

/-- `s.toLowerCase()`. -/
def lowerStr (s : String) : String :=
  ⟨s.data.map lowerChar⟩

/-- Whitespace characters skipped by `trim` and `parseInt`. -/
def isWsChar (c : Char) : Bool :=
  c == ' ' || c == '\t' || c == '\n' || c == '\r' || c.toNat == 11 || c.toNat == 12

/-- `s.trim()`: strip leading and trailing whitespace. -/
def jsTrimString (s : String) : String :=
  ⟨((s.data.dropWhile isWsChar).reverse.dropWhile isWsChar).reverse⟩

/-- Whether a character is a hexadecimal digit. -/
def isHexChar (c : Char) : Bool :=
  c.isDigit || (97 ≤ c.toNat && c.toNat ≤ 102) || (65 ≤ c.toNat && c.toNat ≤ 70)

/-- Value of a hexadecimal digit character. -/
def hexVal (c : Char) : Nat :=
  if c.isDigit then c.toNat - 48
  else if c.toNat ≤ 70 then c.toNat - 55
  else c.toNat - 87

/-- Magnitude of the maximal run of leading decimal digits; `none` (NaN)
when there is no leading digit. -/
def decMag (t : List Char) : Option Nat :=
  let ds := t.takeWhile Char.isDigit
  if ds.isEmpty then none
  else some (ds.foldl (fun acc c => acc * 10 + (c.toNat - 48)) 0)

/-- Magnitude of the maximal run of leading hexadecimal digits. -/
def hexMag (t : List Char) : Option Nat :=
  let ds := t.takeWhile isHexChar
  if ds.isEmpty then none
  else some (ds.foldl (fun acc c => acc * 16 + hexVal c) 0)

/-- Magnitude part of `parseInt`: a `0x`/`0X` prefix switches to base 16. -/
def jsParseIntMag : List Char → Option Nat
  | '0' :: 'x' :: rest => hexMag rest
  | '0' :: 'X' :: rest => hexMag rest
  | rest => decMag rest

/-- JavaScript `parseInt(s)` with no explicit radix: skip leading
whitespace, consume an optional sign, then either a hexadecimal literal or
the maximal run of leading decimal digits; every later character is
ignored.  When no digit can be consumed the result is NaN (`none`). -/
def jsParseInt (s : String) : Option Int :=
  match s.data.dropWhile isWsChar with
  | '-' :: rest => (jsParseIntMag rest).map fun n => -(n : Int)
  | '+' :: rest => (jsParseIntMag rest).map fun n => (n : Int)
  | rest => (jsParseIntMag rest).map fun n => (n : Int)

/-- A JSON scalar as it arrives in a request body: a string or a number.
Years and prices in the catalog are integers, so numbers are modelled
as integers. -/
inductive JsValue where
  | str (s : String)
  | num (n : Int)
deriving Repr, DecidableEq

/-- JavaScript truthiness test `!field` on an optional body field:
absent fields, the empty string and the number 0 are falsy. -/
def jsFalsy : Option JsValue → Bool
  | none => true
  | some (.str s) => s == ""
  | some (.num n) => n == 0

/-- `value.trim()`: trims a string; calling `trim` on a number throws a
TypeError (the route converts it into a 500 response), modelled as `none`. -/
def jsTrim : JsValue → Option String
  | .str s => some (jsTrimString s)
  | .num _ => none

/-- `value.trim()` on an optional field (`none` input cannot survive the
truthiness validation, but the function stays total). -/
def jsTrimOpt : Option JsValue → Option String
  | none => none
  | some v => jsTrim v

/-- `parseInt(value)`: a number round-trips (integers in this model), a
string goes through `jsParseInt`; `none` is the NaN result. -/
def jsToInt : JsValue → Option Int
  | .num n => some n
  | .str s => jsParseInt s

/-- `parseInt(value)` on an optional field. -/
def jsToIntOpt : Option JsValue → Option Int
  | none => none
  | some v => jsToInt v

/-- One vehicle record of the persisted document, with the integer data
model of the specification for `id`, `year` and `price`. -/
structure Listing where
  id : Int
  make : String
  model : String
  year : Int
  price : Int
  location : String
  condition : String
  image : String
  createdAt : String
deriving Repr, DecidableEq

/-- The persisted document: the listing sequence plus the next identifier. -/
structure Catalog where
  cars : List Listing
  nextId : Int
deriving Repr, DecidableEq

/-- Query parameters of `GET /api/cars`; every parameter is absent or a
string, exactly as in `req.query`. -/
structure Params where
  search : Option String
  make : Option String
  model : Option String
  minPrice : Option String
  maxPrice : Option String
  minYear : Option String
  maxYear : Option String
  location : Option String
  condition : Option String
  sortBy : Option String
  sortOrder : Option String
deriving Repr, DecidableEq

/-- `hay` starts with `needle`, on character lists. -/
def charsStart : List Char → List Char → Bool
  | [], _ => true
  | _ :: _, [] => false
  | a :: as, b :: bs => a == b && charsStart as bs

/-- `hay.includes(needle)` on character lists: some suffix of `hay` starts
with `needle`. -/
def charsContains (needle : List Char) : List Char → Bool
  | [] => charsStart needle []
  | c :: rest => charsStart needle (c :: rest) || charsContains needle rest

/-- JavaScript `hay.includes(needle)` substring test. -/
def jsIncludes (hay needle : String) : Bool :=
  charsContains needle.data hay.data

/-- The `if (param) { cars = cars.filter(pred) }` idiom shared by all nine
filters of `GET /api/cars`: an absent parameter and the empty string are
falsy and leave the working set unchanged. -/
def ifParamFilter (v : Option String) (pred : String → Listing → Bool)
    (cars : List Listing) : List Listing :=
  match v with
  | none => cars
  | some s => if s == "" then cars else cars.filter (pred s)

/-- Search filter of `GET /api/cars`: keep a car when the lower-cased search
term occurs in the lower-cased make, model or location. -/
def filterSearch (p : Params) (cars : List Listing) : List Listing :=
  ifParamFilter p.search
    (fun s car =>
      jsIncludes (lowerStr car.make) (lowerStr s) ||
      jsIncludes (lowerStr car.model) (lowerStr s) ||
      jsIncludes (lowerStr car.location) (lowerStr s))
    cars

/-- Make filter: exact case-insensitive equality. -/
def filterMake (p : Params) (cars : List Listing) : List Listing :=
  ifParamFilter p.make (fun s car => lowerStr car.make == lowerStr s) cars

/-- Model filter: exact case-insensitive equality. -/
def filterModel (p : Params) (cars : List Listing) : List Listing :=
  ifParamFilter p.model (fun s car => lowerStr car.model == lowerStr s) cars

/-- `x >= bound` where the bound may be NaN: a comparison against NaN is
always false in JavaScript. -/
def jsGEna (x : Int) (bound : Option Int) : Bool :=
  match bound with
  | some n => x ≥ n
  | none => false

/-- `x <= bound` with the same NaN convention. -/
def jsLEna (x : Int) (bound : Option Int) : Bool :=
  match bound with
  | some n => x ≤ n
  | none => false

/-- Price lower bound filter: `car.price >= parseInt(minPrice)`. -/
def filterMinPrice (p : Params) (cars : List Listing) : List Listing :=
  ifParamFilter p.minPrice (fun s car => jsGEna car.price (jsParseInt s)) cars

/-- Price upper bound filter: `car.price <= parseInt(maxPrice)`. -/
def filterMaxPrice (p : Params) (cars : List Listing) : List Listing :=
  ifParamFilter p.maxPrice (fun s car => jsLEna car.price (jsParseInt s)) cars

/-- Year lower bound filter: `car.year >= parseInt(minYear)`. -/
def filterMinYear (p : Params) (cars : List Listing) : List Listing :=
  ifParamFilter p.minYear (fun s car => jsGEna car.year (jsParseInt s)) cars

/-- Year upper bound filter: `car.year <= parseInt(maxYear)`. -/
def filterMaxYear (p : Params) (cars : List Listing) : List Listing :=
  ifParamFilter p.maxYear (fun s car => jsLEna car.year (jsParseInt s)) cars

/-- Location filter: case-insensitive substring match. -/
def filterLocation (p : Params) (cars : List Listing) : List Listing :=
  ifParamFilter p.location
    (fun s car => jsIncludes (lowerStr car.location) (lowerStr s)) cars

/-- Condition filter: exact case-insensitive equality. -/
def filterCondition (p : Params) (cars : List Listing) : List Listing :=
  ifParamFilter p.condition (fun s car => lowerStr car.condition == lowerStr s) cars

/-- Lexicographic strict order on character lists: shorter prefixes first,
otherwise the first differing character decides. -/
def charsLt : List Char → List Char → Bool
  | [], [] => false
  | [], _ :: _ => true
  | _ :: _, [] => false
  | a :: as, b :: bs => a < b || (a == b && charsLt as bs)

/-- JavaScript `a < b` on strings: lexicographic comparison by code point,
which agrees with the JS code-unit comparison on the data of this
service. -/
def strLtB (a b : String) : Bool :=
  charsLt a.data b.data

/-- Value of `a[sortBy]` inside the sort comparator. `jsUndefined` models the
`undefined` produced by an unknown field name (such as `mileage`, which a
listing does not carry). Inside `SortVal.num`, `none` models NaN. -/
inductive SortVal where
  | num (n : Option Int)
  | str (s : String)
  | jsUndefined
deriving Repr, DecidableEq

/-- Field access `car[f]` as it appears in the sort comparator. -/
def jsFieldVal (car : Listing) (f : String) : SortVal :=
  if f == "id" then .num (some car.id)
  else if f == "make" then .str car.make
  else if f == "model" then .str car.model
  else if f == "year" then .num (some car.year)
  else if f == "price" then .num (some car.price)
  else if f == "location" then .str car.location
  else if f == "condition" then .str car.condition
  else if f == "image" then .str car.image
  else if f == "createdAt" then .str car.createdAt
  else .jsUndefined

/-- `parseInt(value)` applied to a sort value: an integer number passes
through, a string is parsed, `undefined` becomes NaN. -/
def jsParseIntVal : SortVal → SortVal
  | .num n => .num n
  | .str s => .num (jsParseInt s)
  | .jsUndefined => .num none

/-- The comparator operand for a car: `a[sortBy]`, coerced through
`parseInt` when sorting by price, year or mileage. -/
def sortKey (sortBy : String) (car : Listing) : SortVal :=
  let v := jsFieldVal car sortBy
  if sortBy == "price" || sortBy == "year" || sortBy == "mileage" then
    jsParseIntVal v
  else v

/-- JavaScript `aValue > bValue` on sort values.  Every comparison touching
NaN or `undefined` is false.  Cross-shape cases are unreachable here because
a fixed field name always yields values of one shape, and are set to false. -/
def jsGTval : SortVal → SortVal → Bool
  | .num (some x), .num (some y) => decide (y < x)
  | .str a, .str b => strLtB b a
  | _, _ => false

/-- JavaScript `aValue < bValue` on sort values, same conventions. -/
def jsLTval : SortVal → SortVal → Bool
  | .num (some x), .num (some y) => decide (x < y)
  | .str a, .str b => strLtB a b
  | _, _ => false

/-- "a may precede b" for the sort comparator of the source, which returns
`1` when (ascending) `aValue > bValue`, and `-1` otherwise: a precedes b
exactly when the comparator value is ≤ 0. -/
def jsCmpLe (sortBy sortOrder : String) (a b : Listing) : Bool :=
  if sortOrder == "asc" then !(jsGTval (sortKey sortBy a) (sortKey sortBy b))
  else !(jsLTval (sortKey sortBy a) (sortKey sortBy b))

/-- Sorting stage of `GET /api/cars`: `sortBy` defaults to `createdAt` and
`sortOrder` to `desc` when the parameters are absent (the JS destructuring
default applies only to `undefined`, not to the empty string). -/
def sortStep (p : Params) (cars : List Listing) : List Listing :=
  List.insertionSort
    (fun a b => jsCmpLe (p.sortBy.getD "createdAt") (p.sortOrder.getD "desc") a b = true)
    cars

/-- The filtering pipeline of `GET /api/cars` in its fixed source order. -/
def applyFilters (p : Params) (cars : List Listing) : List Listing :=
  filterCondition p (filterLocation p (filterMaxYear p (filterMinYear p
    (filterMaxPrice p (filterMinPrice p (filterModel p (filterMake p
      (filterSearch p cars))))))))

/-- `GET /api/cars`: filter, then sort. -/
def listAll (c : Catalog) (p : Params) : List Listing :=
  sortStep p (applyFilters p c.cars)

/-- The nine filter stages, named, for stating order-independence. -/
inductive FilterStep where
  | search | make | model | minPrice | maxPrice | minYear | maxYear
  | location | condition
deriving Repr, DecidableEq

/-- Dispatch a named filter stage. -/
def applyStep : FilterStep → Params → List Listing → List Listing
  | .search => filterSearch
  | .make => filterMake
  | .model => filterModel
  | .minPrice => filterMinPrice
  | .maxPrice => filterMaxPrice
  | .minYear => filterMinYear
  | .maxYear => filterMaxYear
  | .location => filterLocation
  | .condition => filterCondition

/-- `GET /api/cars/:id`: linear scan for the first exact identifier match;
`find` returning `undefined` yields the 404 body. -/
def getById (c : Catalog) (id : Int) : Except String Listing :=
  match c.cars.find? (fun car => car.id == id) with
  | some car => .ok car
  | none => .error "Car not found"

/-- Insertion-ordered deduplication, as performed by `new Set(array)`:
the first occurrence of each value is kept. -/
def jsSetDedupAux (seen : List String) : List String → List String
  | [] => []
  | x :: xs =>
    if x ∈ seen then jsSetDedupAux seen xs
    else x :: jsSetDedupAux (x :: seen) xs

/-- `[...new Set(l)]`. -/
def jsSetDedup (l : List String) : List String :=
  jsSetDedupAux [] l

/-- Default `Array.prototype.sort()` on strings: ascending lexicographic
order, an element preceding another when it is not strictly greater. -/
def jsSortStrings (l : List String) : List String :=
  List.insertionSort (fun a b => strLtB b a = false) l

/-- `GET /api/makes`: `[...new Set(cars.map(car => car.make))].sort()`. -/
def distinctMakes (c : Catalog) : List String :=
  jsSortStrings (jsSetDedup (c.cars.map fun car => car.make))

/-- Error message of the create validation, naming exactly the six fields
of the source string (image is tested but not named). -/
def requiredFieldsMsg : String :=
  "Missing required fields: make, model, year, price, location, condition"

/-- Outcome of `POST /api/cars`.  `typeError` models `.trim()` thrown on a
non-string (caught by the route, 500).  `nanListing` models the source
storing a listing whose year or price is NaN after `parseInt`; the integer
data model of the specification cannot represent such a listing, so it is a
distinguished outcome rather than a constructed catalog. -/
inductive CreateResult where
  | validationError (msg : String)
  | ok (l : Listing) (c : Catalog)
  | typeError
  | nanListing
deriving Repr, DecidableEq

/-- Request body of `POST /api/cars`: the seven destructured fields, each
absent or a JSON scalar. -/
structure Body where
  make : Option JsValue
  model : Option JsValue
  year : Option JsValue
  price : Option JsValue
  location : Option JsValue
  condition : Option JsValue
  image : Option JsValue
deriving Repr, DecidableEq

/-- `POST /api/cars`: truthiness validation of all seven destructured
fields (missing, empty-string and zero values all fail), then construction
of the new listing with the counter as identifier, append, and counter
increment.  `now` is the `new Date().toISOString()` timestamp, passed
explicitly. -/
def createListing (c : Catalog) (b : Body) (now : String) : CreateResult :=
  if jsFalsy b.make || jsFalsy b.model || jsFalsy b.year || jsFalsy b.price ||
      jsFalsy b.location || jsFalsy b.condition || jsFalsy b.image then
    .validationError requiredFieldsMsg
  else
    match jsTrimOpt b.make, jsTrimOpt b.model, jsTrimOpt b.location,
        jsTrimOpt b.condition, jsTrimOpt b.image with
    | some mk, some md, some loc, some cond, some img =>
      match jsToIntOpt b.year, jsToIntOpt b.price with
      | some yr, some pr =>
        let newCar : Listing := ⟨c.nextId, mk, md, yr, pr, loc, cond, img, now⟩
        .ok newCar ⟨c.cars ++ [newCar], c.nextId + 1⟩
      | _, _ => .nanListing
    | _, _, _, _, _ => .typeError

/-- The counter invariant of the catalog: `nextId` is strictly greater
than every identifier present. -/
def counterInv (c : Catalog) : Prop :=
  ∀ l ∈ c.cars, l.id < c.nextId

instance (c : Catalog) : Decidable (counterInv c) :=
  inferInstanceAs (Decidable (∀ l ∈ c.cars, l.id < c.nextId))

/-- The store read `readData`: `raw` is the file content (`none` when the
file is absent or unreadable), `parse` models `JSON.parse` producing a
catalog (`none` when it throws).  Every failure is caught and replaced by
the empty catalog `{ cars: [], nextId: 1 }`; no error reaches the caller. -/
def readData (parse : String → Option Catalog) (raw : Option String) : Catalog :=
  match raw with
  | none => ⟨[], 1⟩
  | some s =>
    match parse s with
    | none => ⟨[], 1⟩
    | some c => c

/-- Query parameters with every field absent. -/
def emptyParams : Params :=
  ⟨none, none, none, none, none, none, none, none, none, none, none⟩

/-- Query parameters that only choose a price sort with the given order. -/
def priceSortParams (ord : String) : Params :=
  ⟨none, none, none, none, none, none, none, none, none, some "price", some ord⟩

/-!
Helper lemmas about the embedded operations.
-/

/-- Every filter stage is a `List.filter` for a suitable predicate (the
identity branches are the filter by the constantly-true predicate). -/
theorem ifParamFilter_is_filter (v : Option String) (pred : String → Listing → Bool) :
    ∃ q : Listing → Bool, ∀ cars, ifParamFilter v pred cars = cars.filter q := by
  cases v with
  | none => exact ⟨fun _ => true, fun cars => by simp [ifParamFilter]⟩
  | some s =>
    by_cases h : s == ""
    · exact ⟨fun _ => true, fun cars => by simp [ifParamFilter, h]⟩
    · exact ⟨pred s, fun cars => by simp [ifParamFilter, h]⟩

/-- Every filter stage yields a sublist of its input. -/
theorem ifParamFilter_sublist (v : Option String) (pred : String → Listing → Bool)
    (cars : List Listing) : (ifParamFilter v pred cars).Sublist cars := by
  obtain ⟨q, hq⟩ := ifParamFilter_is_filter v pred
  rw [hq]
  exact List.filter_sublist cars

/-- Every named filter stage is a `List.filter`. -/
theorem applyStep_is_filter (i : FilterStep) (p : Params) :
    ∃ q : Listing → Bool, ∀ cars, applyStep i p cars = cars.filter q := by
  cases i <;>
    simp only [applyStep, filterSearch, filterMake, filterModel, filterMinPrice,
      filterMaxPrice, filterMinYear, filterMaxYear, filterLocation, filterCondition] <;>
    exact ifParamFilter_is_filter _ _

/-- Two `List.filter` applications commute. -/
theorem filter_filter_comm (p q : Listing → Bool) (l : List Listing) :
    (l.filter p).filter q = (l.filter q).filter p := by
  rw [List.filter_filter, List.filter_filter]
  congr 1
  funext a
  rw [Bool.and_comm]

/-- C5: for every catalog and every pair of filter stages of `GET
/api/cars` (in particular any pair over disjoint fields), applying the two
stages in either order yields the same listings, and the filter pipeline of
`listAll` is exactly the fixed-order composition of the nine stages, so any
order agrees with the fixed order used by `listAll`. -/
theorem filter_steps_commute (i j : FilterStep) (p : Params) (cars : List Listing) :
    applyStep i p (applyStep j p cars) = applyStep j p (applyStep i p cars) ∧
    applyFilters p cars =
      applyStep .condition p (applyStep .location p (applyStep .maxYear p
        (applyStep .minYear p (applyStep .maxPrice p (applyStep .minPrice p
          (applyStep .model p (applyStep .make p (applyStep .search p cars)))))))) := by
  refine ⟨?_, rfl⟩
  obtain ⟨qi, hi⟩ := applyStep_is_filter i p
  obtain ⟨qj, hj⟩ := applyStep_is_filter j p
  rw [hj cars, hi (cars.filter qj), hi cars, hj (cars.filter qi)]
  exact filter_filter_comm qj qi cars

/-- C10: for every catalog and every combination of query parameters, the
result of `listAll` takes every listing from the catalog, repeats none of
them more often than the catalog does, and is never longer than the
catalog: filtering and sorting fabricate nothing. -/
theorem listAll_no_fabrication (c : Catalog) (p : Params) :
    (∀ l : Listing, List.count l (listAll c p) ≤ List.count l c.cars) ∧
    (listAll c p).length ≤ c.cars.length ∧
    (∀ l ∈ listAll c p, l ∈ c.cars) := by
  have hsub : (applyFilters p c.cars).Sublist c.cars := by
    unfold applyFilters filterCondition filterLocation filterMaxYear filterMinYear
      filterMaxPrice filterMinPrice filterModel filterMake filterSearch
    exact (ifParamFilter_sublist _ _ _).trans ((ifParamFilter_sublist _ _ _).trans
      ((ifParamFilter_sublist _ _ _).trans ((ifParamFilter_sublist _ _ _).trans
      ((ifParamFilter_sublist _ _ _).trans ((ifParamFilter_sublist _ _ _).trans
      ((ifParamFilter_sublist _ _ _).trans ((ifParamFilter_sublist _ _ _).trans
      (ifParamFilter_sublist _ _ _))))))))
  have hperm : (listAll c p).Perm (applyFilters p c.cars) :=
    List.perm_insertionSort _ _
  refine ⟨fun l => ?_, ?_, fun l hl => ?_⟩
  · rw [hperm.count_eq l]
    exact hsub.count_le l
  · rw [hperm.length_eq]
    exact hsub.length_le
  · exact hsub.subset (hperm.subset hl)
/-- The lexicographic order on character lists is irreflexive. -/
theorem charsLt_irrefl (l : List Char) : charsLt l l = false := by
  induction l with
  | nil => rfl
  | cons a as ih => simp [charsLt, ih]

/-- The lexicographic order on character lists is transitive. -/
theorem charsLt_trans : ∀ {a b c : List Char},
    charsLt a b = true → charsLt b c = true → charsLt a c = true := by
  intro a
  induction a with
  | nil =>
    intro b c hab hbc
    cases b with
    | nil => simp [charsLt] at hab
    | cons y ys =>
      cases c with
      | nil => simp [charsLt] at hbc
      | cons z zs => simp [charsLt]
  | cons x xs ih =>
    intro b c hab hbc
    cases b with
    | nil => simp [charsLt] at hab
    | cons y ys =>
      cases c with
      | nil => simp [charsLt] at hbc
      | cons z zs =>
        simp only [charsLt, Bool.or_eq_true, Bool.and_eq_true, beq_iff_eq,
          decide_eq_true_eq] at hab hbc ⊢
        rcases hab with hxy | ⟨hxy, hrest⟩
        · rcases hbc with hyz | ⟨hyz, _⟩
          · exact Or.inl (lt_trans hxy hyz)
          · exact Or.inl (by rw [← hyz]; exact hxy)
        · rcases hbc with hyz | ⟨hyz, hrest2⟩
          · exact Or.inl (by rw [hxy]; exact hyz)
          · exact Or.inr ⟨hxy.trans hyz, ih hrest hrest2⟩

/-- The lexicographic order on character lists is connex. -/
theorem charsLt_connex (a : List Char) : ∀ b : List Char,
    charsLt a b = true ∨ a = b ∨ charsLt b a = true := by
  induction a with
  | nil =>
    intro b
    cases b with
    | nil => exact Or.inr (Or.inl rfl)
    | cons y ys => exact Or.inl (by simp [charsLt])
  | cons x xs ih =>
    intro b
    cases b with
    | nil => exact Or.inr (Or.inr (by simp [charsLt]))
    | cons y ys =>
      rcases lt_trichotomy x y with hxy | rfl | hxy
      · exact Or.inl (by simp [charsLt, hxy])
      · rcases ih ys with h | rfl | h
        · exact Or.inl (by simp [charsLt, h])
        · exact Or.inr (Or.inl rfl)
        · exact Or.inr (Or.inr (by simp [charsLt, h]))
      · exact Or.inr (Or.inr (by simp [charsLt, hxy]))

/-- The lexicographic order on character lists is asymmetric. -/
theorem charsLt_asymm {a b : List Char} (h : charsLt a b = true) :
    charsLt b a = false := by
  cases hba : charsLt b a with
  | false => rfl
  | true =>
    have := charsLt_trans h hba
    rw [charsLt_irrefl] at this
    exact absurd this (by simp)

/-- "not strictly greater" on strings is transitive. -/
theorem strLe_trans {a b c : String} (hab : strLtB b a = false)
    (hbc : strLtB c b = false) : strLtB c a = false := by
  unfold strLtB at hab hbc ⊢
  cases hca : charsLt c.data a.data with
  | false => rfl
  | true =>
    rcases charsLt_connex b.data c.data with h | h | h
    · have hba := charsLt_trans h hca
      rw [hab] at hba
      exact absurd hba (by simp)
    · rw [← h] at hca
      rw [hab] at hca
      exact absurd hca (by simp)
    · rw [hbc] at h
      exact absurd h (by simp)

/-- "not strictly greater" on strings is total. -/
theorem strLe_total (a b : String) : strLtB b a = false ∨ strLtB a b = false := by
  cases h : strLtB b a with
  | false => exact Or.inl rfl
  | true =>
    unfold strLtB at h ⊢
    exact Or.inr (charsLt_asymm h)

/-- The set-based deduplication produces no duplicates, and none of its
elements was already seen. -/
theorem jsSetDedupAux_nodup : ∀ (l seen : List String),
    (jsSetDedupAux seen l).Nodup ∧ ∀ a ∈ jsSetDedupAux seen l, a ∉ seen := by
  intro l
  induction l with
  | nil => intro seen; exact ⟨List.nodup_nil, by simp [jsSetDedupAux]⟩
  | cons x xs ih =>
    intro seen
    by_cases hx : x ∈ seen
    · simp only [jsSetDedupAux, if_pos hx]
      exact ih seen
    · simp only [jsSetDedupAux, if_neg hx]
      obtain ⟨hnd, hmem⟩ := ih (x :: seen)
      refine ⟨List.nodup_cons.mpr ⟨fun hxin => ?_, hnd⟩, fun a ha => ?_⟩
      · exact (hmem x hxin) (List.mem_cons_self x seen)
      · rcases List.mem_cons.mp ha with rfl | ha2
        · exact hx
        · exact fun hseen => (hmem a ha2) (List.mem_cons_of_mem x hseen)

/-- Membership in the set-based deduplication. -/
theorem jsSetDedupAux_mem : ∀ (l seen : List String) (a : String),
    a ∈ jsSetDedupAux seen l ↔ a ∈ l ∧ a ∉ seen := by
  intro l
  induction l with
  | nil => intro seen a; simp [jsSetDedupAux]
  | cons x xs ih =>
    intro seen a
    by_cases hx : x ∈ seen
    · rw [jsSetDedupAux, if_pos hx, ih seen a]
      constructor
      · rintro ⟨hmem, hns⟩
        exact ⟨List.mem_cons_of_mem x hmem, hns⟩
      · rintro ⟨hmem, hns⟩
        rcases List.mem_cons.mp hmem with rfl | h2
        · exact absurd hx hns
        · exact ⟨h2, hns⟩
    · rw [jsSetDedupAux, if_neg hx, List.mem_cons, ih (x :: seen) a]
      constructor
      · rintro (rfl | ⟨hmem, hns⟩)
        · exact ⟨List.mem_cons_self _ _, hx⟩
        · exact ⟨List.mem_cons_of_mem x hmem,
            fun hseen => hns (List.mem_cons_of_mem x hseen)⟩
      · rintro ⟨hmem, hns⟩
        rcases List.mem_cons.mp hmem with rfl | h2
        · exact Or.inl rfl
        · by_cases hax : a = x
          · exact Or.inl hax
          · refine Or.inr ⟨h2, fun hc => ?_⟩
            rcases List.mem_cons.mp hc with h | h
            · exact hax h
            · exact hns h

/-- C8: for every catalog, `distinctMakes` contains no duplicates, contains
exactly the make values occurring in the catalog (case-sensitive as
stored), and is lexicographically sorted (no element strictly greater than
a later one). -/
theorem distinctMakes_spec (c : Catalog) :
    (distinctMakes c).Nodup ∧
    (∀ m, m ∈ distinctMakes c ↔ m ∈ c.cars.map Listing.make) ∧
    (distinctMakes c).Pairwise fun a b => strLtB b a = false := by
  have hperm : (distinctMakes c).Perm (jsSetDedup (c.cars.map Listing.make)) :=
    List.perm_insertionSort _ _
  obtain ⟨hnd0, _⟩ := jsSetDedupAux_nodup (c.cars.map Listing.make) []
  refine ⟨hperm.nodup_iff.mpr hnd0, fun m => ?_, ?_⟩
  · rw [hperm.mem_iff, jsSetDedup, jsSetDedupAux_mem]
    simp
  · haveI : IsTotal String (fun a b => strLtB b a = false) := ⟨strLe_total⟩
    haveI : IsTrans String (fun a b => strLtB b a = false) :=
      ⟨fun _ _ _ => strLe_trans⟩
    exact List.sorted_insertionSort _ _
/-- C1 (amended): `createListing` yields a validation error exactly when one
of the seven destructured fields (the six enumerated ones AND image) is
missing or falsy, and the only message ever produced is the constant that
enumerates exactly make, model, year, price, location, condition. -/
theorem createListing_validation_iff (c : Catalog) (b : Body) (now msg : String) :
    createListing c b now = .validationError msg ↔
      (jsFalsy b.make || jsFalsy b.model || jsFalsy b.year || jsFalsy b.price ||
        jsFalsy b.location || jsFalsy b.condition || jsFalsy b.image) = true ∧
      msg = requiredFieldsMsg := by
  unfold createListing
  split
  next hcond =>
    simp only [hcond, true_and]
    constructor
    · intro he
      injection he with h1
      exact h1.symm
    · intro he
      rw [he]
  next hcond =>
    constructor
    · intro hres
      exfalso
      split at hres
      · split at hres
        · exact CreateResult.noConfusion hres
        · exact CreateResult.noConfusion hres
      · exact CreateResult.noConfusion hres
    · rintro ⟨hc, -⟩
      exact absurd hc hcond

/-- C1 counterexample to the claim as stated: a request with the six
enumerated fields present and non-empty but image absent does NOT succeed;
the source tests `!image` too and rejects it with the six-field message. -/
theorem createListing_image_absent_fails :
    createListing ⟨[], 1⟩
      ⟨some (.str "Honda"), some (.str "Civic"), some (.str "2020"),
        some (.str "15000"), some (.str "Lahore"), some (.str "Used"), none⟩
      "2024-01-01T00:00:00.000Z" = .validationError requiredFieldsMsg := by
  rfl

/-- C9: a present year or price equal to the number 0 or to the empty
string is falsy, so `createListing` rejects the request as having missing
required fields even though the field is present. -/
theorem createListing_zero_rejected (c : Catalog) (b : Body) (now : String)
    (h : b.year = some (.num 0) ∨ b.year = some (.str "") ∨
      b.price = some (.num 0) ∨ b.price = some (.str "")) :
    createListing c b now = .validationError requiredFieldsMsg := by
  unfold createListing
  rcases h with h | h | h | h <;> rw [h] <;> simp [jsFalsy]

/-- Witness for C9 at a concrete request whose year is the number 0. -/
theorem createListing_zero_rejected_witness :
    createListing ⟨[], 1⟩
      ⟨some (.str "Honda"), some (.str "Civic"), some (.num 0),
        some (.str "15000"), some (.str "Lahore"), some (.str "Used"),
        some (.str "x.jpg")⟩ "t" = .validationError requiredFieldsMsg :=
  createListing_zero_rejected _ _ _ (Or.inl rfl)

/-- C2: under the counter invariant, a successful `createListing` assigns
the current counter as the new identifier, increments the counter by
exactly one, preserves the invariant, and the new identifier is strictly
greater than every identifier already present (never reused). -/
theorem createListing_counter_spec (c : Catalog) (b : Body) (now : String)
    (l : Listing) (c2 : Catalog) (hinv : counterInv c)
    (h : createListing c b now = .ok l c2) :
    l.id = c.nextId ∧ c2.nextId = c.nextId + 1 ∧ counterInv c2 ∧
      ∀ m ∈ c.cars, m.id < l.id := by
  unfold createListing at h
  split at h
  · exact absurd h (by simp)
  · split at h
    · split at h
      · injection h with h1 h2
        subst h1
        subst h2
        refine ⟨rfl, rfl, fun m hm => ?_, fun m hm => hinv m hm⟩
        rcases List.mem_append.mp hm with hm1 | hm2
        · have := hinv m hm1
          show m.id < c.nextId + 1
          omega
        · rw [List.mem_singleton.mp hm2]
          show c.nextId < c.nextId + 1
          omega
      · exact absurd h (by simp)
    · exact absurd h (by simp)

/-- Witness for C2: a successful creation on a concrete catalog satisfying
the invariant. -/
theorem createListing_counter_spec_witness :
    (⟨5, "Kia", "Sportage", 2021, 25000, "Multan", "New", "k.jpg", "t"⟩ : Listing).id = (5 : Int) ∧
      (⟨[⟨5, "Kia", "Sportage", 2021, 25000, "Multan", "New", "k.jpg", "t"⟩], 6⟩ : Catalog).nextId = 5 + 1 ∧
      counterInv ⟨[⟨5, "Kia", "Sportage", 2021, 25000, "Multan", "New", "k.jpg", "t"⟩], 6⟩ ∧
      ∀ m ∈ (⟨[], 5⟩ : Catalog).cars, m.id < (⟨5, "Kia", "Sportage", 2021, 25000, "Multan", "New", "k.jpg", "t"⟩ : Listing).id :=
  createListing_counter_spec ⟨[], 5⟩
    ⟨some (.str "Kia"), some (.str "Sportage"), some (.str "2021"),
      some (.str "25000"), some (.str "Multan"), some (.str "New"),
      some (.str "k.jpg")⟩ "t" _ _ (by decide) rfl

/-- The linear scan of `getById` finds a listing by its own identifier when
identifiers are pairwise distinct. -/
theorem find_listing_by_id (cars : List Listing)
    (hnd : (cars.map Listing.id).Nodup) (L : Listing) (hL : L ∈ cars) :
    cars.find? (fun car => car.id == L.id) = some L := by
  induction cars with
  | nil => cases hL
  | cons h t ih =>
    rw [List.map_cons, List.nodup_cons] at hnd
    rcases List.mem_cons.mp hL with rfl | hmem
    · exact List.find?_cons_of_pos _ (by simp)
    · have hne : h.id ≠ L.id := fun he =>
        hnd.1 (by rw [he]; exact List.mem_map_of_mem Listing.id hmem)
      rw [List.find?_cons_of_neg _ (by simp [hne])]
      exact ih hnd.2 hmem

/-- C3: on a catalog with pairwise distinct identifiers, `getById` returns
each listing at its own identifier, and returns the "Car not found" error
at every identifier not present. -/
theorem getById_spec (c : Catalog) (hnd : (c.cars.map Listing.id).Nodup) :
    (∀ L ∈ c.cars, getById c L.id = .ok L) ∧
    ∀ id : Int, id ∉ c.cars.map Listing.id →
      getById c id = .error "Car not found" := by
  constructor
  · intro L hL
    unfold getById
    rw [find_listing_by_id c.cars hnd L hL]
  · intro id hid
    unfold getById
    have hnone : c.cars.find? (fun car => car.id == id) = none :=
      List.find?_eq_none.mpr fun x hx hpx =>
        hid (List.mem_map.mpr ⟨x, hx, beq_iff_eq.mp hpx⟩)
    rw [hnone]

/-- Witness for C3 on a concrete two-listing catalog. -/
theorem getById_spec_witness :
    (∀ L ∈ (⟨[⟨1, "BMW", "X5", 2018, 30000, "LA", "Used", "a", "t1"⟩,
        ⟨2, "Audi", "A4", 2019, 20000, "Karachi", "New", "b", "t2"⟩], 3⟩ : Catalog).cars,
      getById ⟨[⟨1, "BMW", "X5", 2018, 30000, "LA", "Used", "a", "t1"⟩,
        ⟨2, "Audi", "A4", 2019, 20000, "Karachi", "New", "b", "t2"⟩], 3⟩ L.id = .ok L) ∧
    ∀ id : Int, id ∉ ((⟨[⟨1, "BMW", "X5", 2018, 30000, "LA", "Used", "a", "t1"⟩,
        ⟨2, "Audi", "A4", 2019, 20000, "Karachi", "New", "b", "t2"⟩], 3⟩ : Catalog).cars.map Listing.id) →
      getById ⟨[⟨1, "BMW", "X5", 2018, 30000, "LA", "Used", "a", "t1"⟩,
        ⟨2, "Audi", "A4", 2019, 20000, "Karachi", "New", "b", "t2"⟩], 3⟩ id = .error "Car not found" :=
  getById_spec _ (by decide)

/-- C7: whenever the persisted document is absent or unreadable (`raw` is
`none`) or corrupt (`JSON.parse` throws, `parse s = none`), the store read
returns the empty catalog with counter 1; no error reaches the caller. -/
theorem readData_failure_empty (parse : String → Option Catalog)
    (raw : Option String)
    (h : raw = none ∨ ∃ s, raw = some s ∧ parse s = none) :
    readData parse raw = ⟨[], 1⟩ := by
  rcases h with rfl | ⟨s, rfl, hp⟩
  · rfl
  · simp [readData, hp]

/-- Witness for C7 at a concrete corrupt document. -/
theorem readData_failure_empty_witness :
    readData (fun _ => none) (some "not json") = ⟨[], 1⟩ :=
  readData_failure_empty _ _ (Or.inr ⟨"not json", rfl, rfl⟩)
/-- A filter stage whose parameter is present and non-empty but whose
predicate rejects everything empties the working set. -/
theorem ifParamFilter_empty (v : Option String) (s : String)
    (pred : String → Listing → Bool) (hv : v = some s) (hs : s ≠ "")
    (hpred : ∀ car, pred s car = false) (l : List Listing) :
    ifParamFilter v pred l = [] := by
  subst hv
  simp [ifParamFilter, hs, List.filter_eq_nil_iff, hpred]

/-- Filter stages preserve the empty working set. -/
theorem ifParamFilter_nil (v : Option String) (pred : String → Listing → Bool) :
    ifParamFilter v pred [] = [] := by
  obtain ⟨q, hq⟩ := ifParamFilter_is_filter v pred
  rw [hq]
  rfl

/-- The sort stage preserves the empty working set. -/
theorem sortStep_nil (p : Params) : sortStep p [] = [] := rfl

/-- C4: when any one of minPrice, maxPrice, minYear, maxYear is a
non-empty string whose `parseInt` is the NaN sentinel, the corresponding
bound comparison fails for every listing, and `listAll` returns the empty
sequence for every catalog. -/
theorem listAll_nan_bound_empty (c : Catalog) (p : Params) (s : String)
    (hs : s ≠ "") (hn : jsParseInt s = none)
    (h : p.minPrice = some s ∨ p.maxPrice = some s ∨
      p.minYear = some s ∨ p.maxYear = some s) :
    listAll c p = [] := by
  unfold listAll applyFilters
  rcases h with h | h | h | h
  · rw [show filterMinPrice p (filterModel p (filterMake p (filterSearch p c.cars))) = []
        from ifParamFilter_empty _ s _ h hs (fun car => by simp [hn, jsGEna]) _]
    rw [show filterMaxPrice p ([] : List Listing) = [] from ifParamFilter_nil _ _,
      show filterMinYear p ([] : List Listing) = [] from ifParamFilter_nil _ _,
      show filterMaxYear p ([] : List Listing) = [] from ifParamFilter_nil _ _,
      show filterLocation p ([] : List Listing) = [] from ifParamFilter_nil _ _,
      show filterCondition p ([] : List Listing) = [] from ifParamFilter_nil _ _,
      sortStep_nil]
  · rw [show filterMaxPrice p (filterMinPrice p (filterModel p (filterMake p
          (filterSearch p c.cars)))) = []
        from ifParamFilter_empty _ s _ h hs (fun car => by simp [hn, jsLEna]) _]
    rw [show filterMinYear p ([] : List Listing) = [] from ifParamFilter_nil _ _,
      show filterMaxYear p ([] : List Listing) = [] from ifParamFilter_nil _ _,
      show filterLocation p ([] : List Listing) = [] from ifParamFilter_nil _ _,
      show filterCondition p ([] : List Listing) = [] from ifParamFilter_nil _ _,
      sortStep_nil]
  · rw [show filterMinYear p (filterMaxPrice p (filterMinPrice p (filterModel p
          (filterMake p (filterSearch p c.cars))))) = []
        from ifParamFilter_empty _ s _ h hs (fun car => by simp [hn, jsGEna]) _]
    rw [show filterMaxYear p ([] : List Listing) = [] from ifParamFilter_nil _ _,
      show filterLocation p ([] : List Listing) = [] from ifParamFilter_nil _ _,
      show filterCondition p ([] : List Listing) = [] from ifParamFilter_nil _ _,
      sortStep_nil]
  · rw [show filterMaxYear p (filterMinYear p (filterMaxPrice p (filterMinPrice p
          (filterModel p (filterMake p (filterSearch p c.cars)))))) = []
        from ifParamFilter_empty _ s _ h hs (fun car => by simp [hn, jsLEna]) _]
    rw [show filterLocation p ([] : List Listing) = [] from ifParamFilter_nil _ _,
      show filterCondition p ([] : List Listing) = [] from ifParamFilter_nil _ _,
      sortStep_nil]

/-- Witness for C4: a one-listing catalog is emptied by a non-numeric
minPrice. -/
theorem listAll_nan_bound_empty_witness :
    listAll ⟨[⟨1, "BMW", "X5", 2018, 30000, "LA", "Used", "a", "t"⟩], 2⟩
      ⟨none, none, none, some "abc", none, none, none, none, none, none, none⟩
      = [] :=
  listAll_nan_bound_empty _ _ "abc" (by decide) (by decide) (Or.inl rfl)
/-- The ascending price comparator orders a car before another exactly when
its price is not greater. -/
theorem jsCmpLe_price_asc (a b : Listing) :
    (jsCmpLe "price" "asc" a b = true) ↔ a.price ≤ b.price := by
  rw [show jsCmpLe "price" "asc" a b = !decide (b.price < a.price) from rfl]
  simp [not_lt]

/-- The descending price comparator orders a car before another exactly
when its price is not smaller. -/
theorem jsCmpLe_price_desc (a b : Listing) :
    (jsCmpLe "price" "desc" a b = true) ↔ b.price ≤ a.price := by
  rw [show jsCmpLe "price" "desc" a b = !decide (a.price < b.price) from rfl]
  simp [not_lt]

/-- A permutation-invariant strengthening: a sequence that is pairwise
non-decreasing in price and has pairwise distinct prices is pairwise
strictly increasing in price. -/
theorem pairwise_price_strict {l : List Listing}
    (hle : l.Pairwise fun a b => a.price ≤ b.price)
    (hnd : (l.map Listing.price).Nodup) :
    l.Pairwise fun a b => a.price < b.price := by
  have hne : l.Pairwise fun a b => a.price ≠ b.price := List.pairwise_map.mp hnd
  exact (hle.and hne).imp fun h => lt_of_le_of_ne h.1 h.2

/-- C6: on a catalog with pairwise distinct prices, the `listAll` sequence
for sortBy=price, sortOrder=asc is the reverse of the one for
sortOrder=desc, and the ascending sequence places the lesser price
first. -/
theorem listAll_price_sort_reverse (c : Catalog)
    (hnd : (c.cars.map Listing.price).Nodup) :
    listAll c (priceSortParams "asc") = (listAll c (priceSortParams "desc")).reverse ∧
    (listAll c (priceSortParams "asc")).Pairwise fun a b => a.price ≤ b.price := by
  have hA : listAll c (priceSortParams "asc") =
      List.insertionSort (fun a b => jsCmpLe "price" "asc" a b = true) c.cars := rfl
  have hD : listAll c (priceSortParams "desc") =
      List.insertionSort (fun a b => jsCmpLe "price" "desc" a b = true) c.cars := rfl
  have permA :
      (List.insertionSort (fun a b => jsCmpLe "price" "asc" a b = true) c.cars).Perm
        c.cars := List.perm_insertionSort _ _
  have permD :
      (List.insertionSort (fun a b => jsCmpLe "price" "desc" a b = true) c.cars).Perm
        c.cars := List.perm_insertionSort _ _
  haveI : IsTotal Listing (fun a b => jsCmpLe "price" "asc" a b = true) :=
    ⟨fun a b => by
      rw [jsCmpLe_price_asc, jsCmpLe_price_asc]
      exact le_total a.price b.price⟩
  haveI : IsTrans Listing (fun a b => jsCmpLe "price" "asc" a b = true) :=
    ⟨fun a b c hab hbc => (jsCmpLe_price_asc _ _).mpr
      (le_trans ((jsCmpLe_price_asc _ _).mp hab) ((jsCmpLe_price_asc _ _).mp hbc))⟩
  haveI : IsTotal Listing (fun a b => jsCmpLe "price" "desc" a b = true) :=
    ⟨fun a b => by
      rw [jsCmpLe_price_desc, jsCmpLe_price_desc]
      exact le_total b.price a.price⟩
  haveI : IsTrans Listing (fun a b => jsCmpLe "price" "desc" a b = true) :=
    ⟨fun a b c hab hbc => (jsCmpLe_price_desc _ _).mpr
      (le_trans ((jsCmpLe_price_desc _ _).mp hbc) ((jsCmpLe_price_desc _ _).mp hab))⟩
  have sortedA :
      (List.insertionSort (fun a b => jsCmpLe "price" "asc" a b = true) c.cars).Pairwise
        (fun a b => a.price ≤ b.price) :=
    (List.sorted_insertionSort _ c.cars).imp fun h => (jsCmpLe_price_asc _ _).mp h
  have sortedD :
      (List.insertionSort (fun a b => jsCmpLe "price" "desc" a b = true) c.cars).Pairwise
        (fun a b => b.price ≤ a.price) :=
    (List.sorted_insertionSort _ c.cars).imp fun h => (jsCmpLe_price_desc _ _).mp h
  have sortedRevD :
      (List.insertionSort (fun a b => jsCmpLe "price" "desc" a b = true) c.cars).reverse.Pairwise
        (fun a b => a.price ≤ b.price) :=
    List.pairwise_reverse.mpr sortedD
  have ndA :
      ((List.insertionSort (fun a b => jsCmpLe "price" "asc" a b = true) c.cars).map
        Listing.price).Nodup :=
    ((permA.map Listing.price).nodup_iff).mpr hnd
  have ndRevD :
      ((List.insertionSort (fun a b => jsCmpLe "price" "desc" a b = true) c.cars).reverse.map
        Listing.price).Nodup :=
    ((((List.reverse_perm _).trans permD).map Listing.price).nodup_iff).mpr hnd
  have strictA := pairwise_price_strict sortedA ndA
  have strictRevD := pairwise_price_strict sortedRevD ndRevD
  haveI : IsAntisymm Listing (fun a b => a.price < b.price) :=
    ⟨fun a b h1 h2 => absurd h1 (lt_asymm h2)⟩
  have permAD :
      (List.insertionSort (fun a b => jsCmpLe "price" "asc" a b = true) c.cars).Perm
        (List.insertionSort (fun a b => jsCmpLe "price" "desc" a b = true) c.cars).reverse :=
    permA.trans (permD.symm.trans (List.reverse_perm _).symm)
  have heq := List.eq_of_perm_of_sorted permAD strictA strictRevD
  refine ⟨?_, ?_⟩
  · rw [hA, hD]
    exact heq
  · rw [hA]
    exact sortedA

/-- Witness for C6 on a concrete catalog with three distinct prices. -/
theorem listAll_price_sort_reverse_witness :
    ((⟨[⟨1, "BMW", "X5", 2018, 30000, "LA", "Used", "a", "t1"⟩,
        ⟨2, "Honda", "Civic", 2020, 15000, "Lahore", "New", "b", "t2"⟩,
        ⟨3, "Audi", "A4", 2019, 20000, "Karachi", "Used", "c", "t3"⟩], 4⟩ : Catalog).cars.map
          Listing.price).Nodup ∧
    (listAll ⟨[⟨1, "BMW", "X5", 2018, 30000, "LA", "Used", "a", "t1"⟩,
        ⟨2, "Honda", "Civic", 2020, 15000, "Lahore", "New", "b", "t2"⟩,
        ⟨3, "Audi", "A4", 2019, 20000, "Karachi", "Used", "c", "t3"⟩], 4⟩
        (priceSortParams "asc") =
      (listAll ⟨[⟨1, "BMW", "X5", 2018, 30000, "LA", "Used", "a", "t1"⟩,
        ⟨2, "Honda", "Civic", 2020, 15000, "Lahore", "New", "b", "t2"⟩,
        ⟨3, "Audi", "A4", 2019, 20000, "Karachi", "Used", "c", "t3"⟩], 4⟩
        (priceSortParams "desc")).reverse ∧
      (listAll ⟨[⟨1, "BMW", "X5", 2018, 30000, "LA", "Used", "a", "t1"⟩,
        ⟨2, "Honda", "Civic", 2020, 15000, "Lahore", "New", "b", "t2"⟩,
        ⟨3, "Audi", "A4", 2019, 20000, "Karachi", "Used", "c", "t3"⟩], 4⟩
        (priceSortParams "asc")).Pairwise fun a b => a.price ≤ b.price) :=
  ⟨by decide, listAll_price_sort_reverse _ (by decide)⟩
